import Mathlib

/-!
Shallow embedding of the grandma task-bot repository.

The repository keeps its tasks in a SQLite table; we model the table as a
`List TaskRow` and every SQL statement as an explicit function on that list.
Timestamps are stored by the code as ISO-8601 strings whose lexicographic
order coincides with chronological order; we model them as integers
(milliseconds), matching the `Date` arithmetic in `monthlyCleanup`.

The repository contains several near-duplicate variants of the resolver:
* `handleComplete` / `handleRemove` from the first half of `index.js`
  (no empty-target guard, no owner filter) — embedded as `handleComplete_v1`;
* the same handlers from the second half of `index.js` (empty-target guard,
  still no owner filter) — embedded as `handleComplete_v2`, `handleRemove_v2`;
* the edit-capable variant (`part_001`): guard, owner filter, `handleEdit` —
  embedded as `handleComplete_v3` and `handleEdit`;
* the tool-call stack `handlers.js` backed by the `db.js` schema with
  `UNIQUE(title, who, completed)` — embedded as `createTasks`,
  `completeTasks`;
* the ingestion transaction `processTasks` of `index.js`, whose schema has
  no unique constraint.

SQLite's default `LIKE` is ASCII-case-insensitive and `lower()` lowers ASCII
only; both are modelled by lowering with `Char.toLower` (ASCII) on both
sides and testing substring containment.  A `NULL` column never matches a
`LIKE` pattern, which is why optional columns use `Option String`.
-/

/-- ASCII whitespace test used to model `String.prototype.trim`. -/
def isWS (c : Char) : Bool := c == ' ' || c == '\t' || c == '\n' || c == '\r'

/-- Trim whitespace from both ends of a character list. -/
def trimL (l : List Char) : List Char :=
  (((l.dropWhile isWS).reverse).dropWhile isWS).reverse

/-- `isStartOf p s` holds when `p` occurs at the very beginning of `s`. -/
def isStartOf : List Char → List Char → Bool
  | [], _ => true
  | _ :: _, [] => false
  | a :: as, b :: bs => a == b && isStartOf as bs

/-- `occursIn p s` holds when `p` occurs contiguously somewhere in `s`
(the semantics of SQL `s LIKE '%p%'` for a pattern without wildcards). -/
def occursIn (p : List Char) : List Char → Bool
  | [] => isStartOf p []
  | b :: bs => isStartOf p (b :: bs) || occursIn p bs

/-- Remove the first occurrence of `pat` from a character list, the
semantics of JavaScript `s.replace(pat, '')`, which replaces only the
first occurrence.  When `pat` does not occur the list is unchanged. -/
def removeFirstL (pat : List Char) : List Char → List Char
  | [] => []
  | c :: cs =>
    if isStartOf pat (c :: cs) then (c :: cs).drop pat.length
    else c :: removeFirstL pat cs

/-- ASCII lowering of a character list (SQLite `lower`, and JavaScript
`toLowerCase` restricted to ASCII). -/
def lowerL (l : List Char) : List Char := l.map Char.toLower

/-- Case-insensitive containment: `hay LIKE '%pat%'` under SQLite's
ASCII-case-insensitive `LIKE`. -/
def containsCI (hay pat : String) : Bool :=
  occursIn (lowerL pat.toList) (lowerL hay.toList)

/-- ASCII lowering of a string. -/
def toLowerS (s : String) : String := String.mk (lowerL s.toList)

/-- First three characters, the semantics of `target.substring(0, 3)`. -/
def take3 (s : String) : String := String.mk (s.toList.take 3)

/-- The target-cleaning pipeline of the `handleComplete` variants:
`target.toLowerCase().replace('done', '').replace('bought', '').trim()`. -/
def cleanTarget (t : String) : String :=
  String.mk (trimL (removeFirstL (String.toList "bought")
    (removeFirstL (String.toList "done") (lowerL t.toList))))

/-- Cleaning for a possibly-missing target: the guarded variants compute
`target ? target.toLowerCase()...trim() : ''`. -/
def cleanTargetOpt : Option String → String
  | none => ""
  | some t => cleanTarget t

/-- One row of the `tasks` table. -/
structure TaskRow where
  id : Nat
  title : String
  who : String
  when_text : Option String
  where_text : Option String
  importance : String
  category : String
  createdBy : String
  createdAt : Int
  completed : Bool
  completedAt : Option Int
  completedBy : Option String
deriving DecidableEq

/-- `col LIKE '%pat%'` on a nullable column: `NULL` never matches. -/
def optContainsCI : Option String → String → Bool
  | none, _ => false
  | some s, pat => containsCI s pat

/-- A new-task descriptor as produced by intent interpretation.  A missing
JSON field is `none`; a field present as the empty string is `some ""`. -/
structure Descriptor where
  title : String
  who : Option String := none
  when_text : Option String := none
  where_text : Option String := none
  importance : Option String := none
  category : Option String := none
deriving DecidableEq

/-- JavaScript `x || null` on a string-or-absent value: the empty string is
falsy, so it coerces to `null`. -/
def jsOrNull : Option String → Option String
  | none => none
  | some s => if s = "" then none else some s

/-- JavaScript `x || dflt` on a string-or-absent value. -/
def jsOrDefault (v : Option String) (dflt : String) : String :=
  match v with
  | none => dflt
  | some s => if s = "" then dflt else s

/-- The row inserted by `handlers.js` `createTasks` for one descriptor:
`who` and `createdBy` are always the calling person. -/
def mkRowH (person : String) (now : Int) (id : Nat) (d : Descriptor) : TaskRow :=
  { id := id, title := d.title, who := person,
    when_text := jsOrNull d.when_text, where_text := jsOrNull d.where_text,
    importance := jsOrDefault d.importance "normal",
    category := jsOrDefault d.category "general",
    createdBy := person, createdAt := now,
    completed := false, completedAt := none, completedBy := none }

/-- The row inserted by `index.js` `processTasks` for one descriptor:
`who` defaults to the sender only when the descriptor's `who` is falsy. -/
def mkRowI (person : String) (now : Int) (id : Nat) (d : Descriptor) : TaskRow :=
  { mkRowH person now id d with who := jsOrDefault d.who person }

/-- The key of the `UNIQUE(title, who, completed)` constraint of `db.js`,
matched against a fresh (active) insert. -/
def dupPred (title who : String) (t : TaskRow) : Bool :=
  t.title == title && t.who == who && t.completed == false

/-- Does inserting an active `(title, who)` row violate the unique
constraint against the current table? -/
def conflictWith (title who : String) (store : List TaskRow) : Bool :=
  store.any (dupPred title who)

/-- Accumulated state of a `createTasks` ingestion run. -/
structure IngestResult where
  store : List TaskRow
  nextId : Nat
  added : Nat
deriving DecidableEq

/-- One iteration of the `createTasks` loop: the per-row `try`/`catch`
turns a unique-constraint conflict into a skip, and the loop continues. -/
def createStep (person : String) (now : Int) (acc : IngestResult)
    (d : Descriptor) : IngestResult :=
  if conflictWith d.title person acc.store then acc
  else { store := acc.store ++ [mkRowH person now acc.nextId d],
         nextId := acc.nextId + 1, added := acc.added + 1 }

/-- `handlers.js` `createTasks`: insert each descriptor, skipping rows
that hit the unique constraint, counting the rows actually added. -/
def createTasks (person : String) (now : Int) (batch : List Descriptor)
    (store : List TaskRow) (nid : Nat) : IngestResult :=
  batch.foldl (createStep person now) { store := store, nextId := nid, added := 0 }

/-- The confirmation categories of `createTasks`: 0 added → "Hab ich
schon." (already have that), 1 → echo the title, 2–5 → count summary,
more → count with a prioritisation prompt. -/
inductive CreateReply
  | alreadyHave
  | one
  | count (n : Nat)
  | lots (n : Nat)
deriving DecidableEq

/-- The branch structure of the `createTasks` confirmation message. -/
def createReply (added : Nat) : CreateReply :=
  if added = 1 then CreateReply.one
  else if added > 1 ∧ added ≤ 5 then CreateReply.count added
  else if added > 5 then CreateReply.lots added
  else CreateReply.alreadyHave

/-- `index.js` `processTasks`: one transaction over the batch.  The
`index.js` schema declares no unique constraint, so every row of the batch
inserts and the transaction never aborts.  Returns the table and the next
fresh id. -/
def processTasks (person : String) (now : Int) (batch : List Descriptor)
    (store : List TaskRow) (nid : Nat) : List TaskRow × Nat :=
  batch.foldl (fun acc d => (acc.1 ++ [mkRowI person now acc.2 d], acc.2 + 1))
    (store, nid)

/-- The mutation of a completion: `SET completed = 1, completedAt = now,
completedBy = person`. -/
def completeRow (person : String) (now : Int) (t : TaskRow) : TaskRow :=
  { t with completed := true, completedAt := some now, completedBy := some person }

/-- The user-visible outcome of a resolver operation, up to cosmetic
wording: confirmations carry the reported count, disambiguation carries
the suggested title. -/
inductive Reply
  | clarify
  | suggestion (title : String)
  | notFound
  | done (n : Nat)
  | updated
  | nothingToChange
  | editNotFound
  | removed (title : String)
  | error
deriving DecidableEq

/-- The Edeka context shortcut of `completeTasks`: the identifier mentions
edeka together with one of the German bulk qualifiers zeug / sachen /
alles. -/
def isEdekaShortcut (id : String) : Bool :=
  containsCI id "edeka" &&
    (containsCI id "zeug" || containsCI id "sachen" || containsCI id "alles")

/-- The kitchen context shortcut of `completeTasks`. -/
def isKuecheShortcut (id : String) : Bool :=
  toLowerS id == "küche fertig" || toLowerS id == "küche"

/-- Rows selected by the Edeka bulk completion:
`completed = 0 AND who = person AND (where_text LIKE '%Edeka%' OR title LIKE '%Edeka%')`. -/
def edekaMatch (person : String) (t : TaskRow) : Bool :=
  !t.completed && t.who == person &&
    (optContainsCI t.where_text "Edeka" || containsCI t.title "Edeka")

/-- Rows selected by the kitchen bulk completion. -/
def kuecheMatch (person : String) (t : TaskRow) : Bool :=
  !t.completed && t.who == person &&
    (containsCI t.title "küche" || containsCI t.title "geschirr" ||
      containsCI t.title "spül")

/-- Rows selected by the standard completion path:
`completed = 0 AND who = person AND title LIKE '%identifier%'`. -/
def stdMatch (person id : String) (t : TaskRow) : Bool :=
  !t.completed && t.who == person && containsCI t.title id

/-- The zero-completions fallback of `completeTasks` (and `deleteTasks`):
query the caller's active tasks whose title contains the first three
characters of the first identifier (`LIMIT 3`), suggest the first hit,
otherwise report not found. -/
def disambigReply (store : List TaskRow) (person fid : String) : Reply :=
  match (store.filter (fun t =>
      !t.completed && t.who == person && containsCI t.title (take3 fid))).take 3 with
  | [] => Reply.notFound
  | t :: _ => Reply.suggestion t.title

/-- One iteration of the `completeTasks` loop over an identifier: the two
context shortcuts bulk-complete and add the number of changed rows to the
running count; the standard path completes every matching row of the
caller but increments the count by one when anything changed. -/
def completeStep (person : String) (now : Int) (acc : List TaskRow × Nat)
    (id : String) : List TaskRow × Nat :=
  if isEdekaShortcut id then
    ((acc.1.map fun t => if edekaMatch person t then completeRow person now t else t),
      acc.2 + (acc.1.filter (edekaMatch person)).length)
  else if isKuecheShortcut id then
    ((acc.1.map fun t => if kuecheMatch person t then completeRow person now t else t),
      acc.2 + (acc.1.filter (kuecheMatch person)).length)
  else
    ((acc.1.map fun t => if stdMatch person id t then completeRow person now t else t),
      if 0 < (acc.1.filter (stdMatch person id)).length then acc.2 + 1 else acc.2)

/-- The outcome of a `completeTasks` call: the table afterwards, the
count the confirmation reports, and the reply category. -/
structure CompleteResult where
  store : List TaskRow
  count : Nat
  reply : Reply
deriving DecidableEq

/-- `handlers.js` `completeTasks` over a list of identifiers.  When the
count stays zero the disambiguation fallback runs on the first identifier
(an empty identifier list would make `taskIdentifiers[0]` fail, which the
surrounding `catch` turns into a generic error reply). -/
def completeTasks (person : String) (now : Int) (ids : List String)
    (store : List TaskRow) : CompleteResult :=
  let r := ids.foldl (completeStep person now) (store, 0)
  { store := r.1, count := r.2,
    reply :=
      if r.2 = 0 then
        match ids.head? with
        | none => Reply.error
        | some fid => disambigReply r.1 person fid
      else Reply.done r.2 }

/-- Keep the shorter-titled of two tasks, preferring the first on ties —
the accumulator of `ORDER BY length(title) ASC LIMIT 1` over a scan. -/
def pickShorter (best u : TaskRow) : TaskRow :=
  if u.title.length < best.title.length then u else best

/-- `SELECT ... WHERE p ORDER BY length(title) ASC LIMIT 1`: the matching
row of minimal title length (first such row in table order). -/
def shortestMatch (p : TaskRow → Bool) (store : List TaskRow) : Option TaskRow :=
  match store.filter p with
  | [] => none
  | t :: ts => some (ts.foldl pickShorter t)

/-- `handleComplete` from the first half of `index.js`: no empty-target
guard and no owner filter; the cleaned target is matched against every
active row and the shortest-titled match is completed.  An unmatched
target gets the clarifying "What exactly?" prompt. -/
def handleComplete_v1 (person : String) (now : Int) (target : String)
    (store : List TaskRow) : List TaskRow × Reply :=
  match shortestMatch
      (fun t => !t.completed && containsCI t.title (cleanTarget target)) store with
  | some t =>
    ((store.map fun u => if u.id == t.id then completeRow person now u else u),
      Reply.done 1)
  | none => (store, Reply.clarify)

/-- `handleComplete` from the second half of `index.js`: a missing target
or one whose cleaned form is empty produces the clarifying prompt before
any query runs; still no owner filter. -/
def handleComplete_v2 (person : String) (now : Int) (target : Option String)
    (store : List TaskRow) : List TaskRow × Reply :=
  if cleanTargetOpt target = "" then (store, Reply.clarify)
  else
    match shortestMatch
        (fun t => !t.completed && containsCI t.title (cleanTargetOpt target)) store with
    | some t =>
      ((store.map fun u => if u.id == t.id then completeRow person now u else u),
        Reply.done 1)
    | none => (store, Reply.notFound)

/-- `handleComplete` from the edit-capable variant (`part_001`): guard,
owner filter, shortest-titled match. -/
def handleComplete_v3 (person : String) (now : Int) (target : Option String)
    (store : List TaskRow) : List TaskRow × Reply :=
  if cleanTargetOpt target = "" then (store, Reply.clarify)
  else
    match shortestMatch
        (fun t => !t.completed && t.who == person &&
          containsCI t.title (cleanTargetOpt target)) store with
    | some t =>
      ((store.map fun u => if u.id == t.id then completeRow person now u else u),
        Reply.done 1)
    | none => (store, Reply.notFound)

/-- The target lowering of `handleRemove`: `target ? target.toLowerCase() : ''`. -/
def removeTargetLower : Option String → String
  | none => ""
  | some t => toLowerS t

/-- `handleRemove` from the second half of `index.js`: guard on a missing
or empty target, then delete the first active row whose title contains
the target (row removal, not completion). -/
def handleRemove_v2 (_person : String) (_now : Int) (target : Option String)
    (store : List TaskRow) : List TaskRow × Reply :=
  if removeTargetLower target = "" then (store, Reply.clarify)
  else
    match (store.filter (fun t =>
        !t.completed && containsCI t.title (removeTargetLower target))).head? with
    | some t =>
      ((store.filter fun u => !(u.id == t.id)), Reply.removed t.title)
    | none => (store, Reply.notFound)

/-- The columns `handleEdit` recognises in an edit's `details` object. -/
def validColumns : List String :=
  ["title", "who", "when_text", "where_text", "importance", "category"]

/-- Write one recognised column of a task row. -/
def setField (t : TaskRow) (k v : String) : TaskRow :=
  if k = "title" then { t with title := v }
  else if k = "who" then { t with who := v }
  else if k = "when_text" then { t with when_text := some v }
  else if k = "where_text" then { t with where_text := some v }
  else if k = "importance" then { t with importance := v }
  else if k = "category" then { t with category := v }
  else t

/-- The dynamically built `UPDATE ... SET` of `handleEdit`: each pair of
`details` whose key is a recognised column writes that column; every
other key is ignored. -/
def applyDetails (t : TaskRow) (ds : List (String × String)) : TaskRow :=
  ds.foldl (fun acc kv =>
    if validColumns.contains kv.1 then setField acc kv.1 kv.2 else acc) t

/-- The find query of `handleEdit`:
`completed = 0 AND who = person AND lower(title) LIKE '%target%'`. -/
def editMatch (person target : String) (t : TaskRow) : Bool :=
  !t.completed && t.who == person && containsCI t.title target

/-- `handleEdit` from the edit-capable variant (`part_001`): guard on a
missing target / empty details, find the caller's first matching active
task, and partially update only the recognised fields present in
`details` (first match in table order, `LIMIT 1`). -/
def handleEdit (person : String) (target : Option String)
    (ds : List (String × String)) (store : List TaskRow) : List TaskRow × Reply :=
  match target with
  | none => (store, Reply.clarify)
  | some tg =>
    if tg = "" ∨ ds.isEmpty then (store, Reply.clarify)
    else
      match (store.filter (editMatch person tg)).head? with
      | none => (store, Reply.editNotFound)
      | some t =>
        if (ds.filter (fun kv => validColumns.contains kv.1)).isEmpty then
          (store, Reply.nothingToChange)
        else
          ((store.map fun u => if u.id == t.id then applyDetails u ds else u),
            Reply.updated)

/-- The state the maintenance sweep acts on: the `lastCleanup` knowledge
entry, the tasks table, and the append-only archive artifacts (one list
of rows per sweep run that archived anything). -/
structure SweepState where
  lastCleanup : Int
  tasks : List TaskRow
  archive : List (List TaskRow)
deriving DecidableEq

/-- Thirty days in milliseconds, the retention threshold. -/
def retentionMs : Int := 30 * 24 * 60 * 60 * 1000

/-- Is a row swept: completed, and completed strictly before the cutoff
(a `NULL completedAt` never compares below the cutoff). -/
def isOldTask (cutoff : Int) (t : TaskRow) : Bool :=
  t.completed && (match t.completedAt with
    | some c => decide (c < cutoff)
    | none => false)

/-- `monthlyCleanup`: gated on the stored `lastCleanup` timestamp — a run
within thirty days of the last is a no-op.  Otherwise: archive the old
completed rows (only writing an artifact when there are any), delete them
from the live table, and update the timestamp.  The boolean reports
whether the gate passed. -/
def monthlyCleanup (now : Int) (s : SweepState) : SweepState × Bool :=
  if now - s.lastCleanup < retentionMs then (s, false)
  else
    ({ lastCleanup := now,
       tasks := s.tasks.filter (fun t => !isOldTask (now - retentionMs) t),
       archive :=
         if (s.tasks.filter (isOldTask (now - retentionMs))).isEmpty then s.archive
         else s.archive ++ [s.tasks.filter (isOldTask (now - retentionMs))] },
      true)

/-! ## Helper lemmas -/

/-- The fold of `pickShorter` returns its seed or an element of the list. -/
theorem foldl_pickShorter_mem (ts : List TaskRow) (b : TaskRow) :
    ts.foldl pickShorter b = b ∨ ts.foldl pickShorter b ∈ ts := by
  induction ts generalizing b with
  | nil => exact Or.inl rfl
  | cons u us ih =>
    rcases ih (pickShorter b u) with h | h
    · rw [List.foldl_cons, h]
      unfold pickShorter
      split
      · exact Or.inr (List.mem_cons_self u us)
      · exact Or.inl rfl
    · exact Or.inr (List.mem_cons_of_mem u (by rw [List.foldl_cons]; exact h))

/-- The fold of `pickShorter` is no longer-titled than its seed or any
element of the list. -/
theorem foldl_pickShorter_le (ts : List TaskRow) (b : TaskRow) :
    (ts.foldl pickShorter b).title.length ≤ b.title.length ∧
      ∀ u ∈ ts, (ts.foldl pickShorter b).title.length ≤ u.title.length := by
  induction ts generalizing b with
  | nil => exact ⟨Nat.le_refl _, by intro u hu; cases hu⟩
  | cons u us ih =>
    have hseed : (pickShorter b u).title.length ≤ b.title.length := by
      unfold pickShorter; split
      · omega
      · exact Nat.le_refl _
    have hu0 : (pickShorter b u).title.length ≤ u.title.length := by
      unfold pickShorter; split
      · exact Nat.le_refl _
      · omega
    have ih2 := ih (pickShorter b u)
    refine ⟨by rw [List.foldl_cons]; exact Nat.le_trans ih2.1 hseed, ?_⟩
    intro v hv
    rw [List.foldl_cons]
    rcases List.mem_cons.mp hv with rfl | hv
    · exact Nat.le_trans ih2.1 hu0
    · exact ih2.2 v hv

/-- Specification of `shortestMatch`: any returned row is a matching row
of the table whose title length is minimal among all matching rows. -/
theorem shortestMatch_spec (p : TaskRow → Bool) (store : List TaskRow)
    (t : TaskRow) (h : shortestMatch p store = some t) :
    t ∈ store ∧ p t = true ∧
      ∀ u ∈ store, p u = true → t.title.length ≤ u.title.length := by
  unfold shortestMatch at h
  cases hf : store.filter p with
  | nil => rw [hf] at h; cases h
  | cons a as =>
    rw [hf] at h
    have ht : t = as.foldl pickShorter a := by
      injection h with h2
      exact h2.symm
    have htf : t ∈ store.filter p := by
      rw [hf]
      rcases foldl_pickShorter_mem as a with h1 | h1
      · rw [ht, h1]; exact List.mem_cons_self a as
      · exact List.mem_cons_of_mem a (ht ▸ h1)
    have hmem := List.mem_filter.mp htf
    refine ⟨hmem.1, hmem.2, ?_⟩
    intro u hu hpu
    have huf : u ∈ store.filter p := List.mem_filter.mpr ⟨hu, hpu⟩
    rw [hf] at huf
    have hle := foldl_pickShorter_le as a
    rcases List.mem_cons.mp huf with rfl | huf
    · exact ht ▸ hle.1
    · exact ht ▸ hle.2 u huf

/-- Mapping a guarded rewrite over a list with no matching element is
the identity. -/
theorem map_ite_id (p : TaskRow → Bool) (f : TaskRow → TaskRow)
    (l : List TaskRow) (h : ∀ u ∈ l, p u = false) :
    (l.map fun u => if p u then f u else u) = l := by
  induction l with
  | nil => rfl
  | cons a as ih =>
    rw [List.map_cons, h a (List.mem_cons_self a as), if_neg (by simp),
      ih (fun u hu => h u (List.mem_cons_of_mem a hu))]

/-- Filtering with a predicate false on every element gives the empty list. -/
theorem filter_eq_nil_of_all_false (p : TaskRow → Bool) (l : List TaskRow)
    (h : ∀ u ∈ l, p u = false) : l.filter p = [] := by
  induction l with
  | nil => rfl
  | cons a as ih =>
    rw [List.filter_cons, h a (List.mem_cons_self a as)]
    exact ih (fun u hu => h u (List.mem_cons_of_mem a hu))

/-- A false `any` means the predicate fails on every element. -/
theorem all_false_of_any_false (p : TaskRow → Bool) (l : List TaskRow)
    (h : l.any p = false) : ∀ u ∈ l, p u = false := by
  intro u hu
  by_contra hne
  have : p u = true := by
    cases hp : p u
    · exact absurd hp hne
    · rfl
  have := List.any_eq_true.mpr ⟨u, hu, this⟩
  rw [h] at this
  cases this

/-! ## C9: maintenance-sweep gating -/

/-- Claim C9: the Maintenance Sweep only proceeds when the elapsed time
since the stored last-run timestamp reaches the 30-day threshold —
otherwise it is a no-op — and a run that proceeds stores its own time as
the new timestamp, so a second run within the retention window is a
no-op that mutates neither the tasks table nor the archive: the
archive-and-delete step happens at most once. -/
theorem monthlyCleanup_gated (s : SweepState) (t1 t2 : Int)
    (hwin : t2 - t1 < retentionMs)
    (hrun : (monthlyCleanup t1 s).2 = true) :
    (∀ (s2 : SweepState) (now : Int), now - s2.lastCleanup < retentionMs →
      monthlyCleanup now s2 = (s2, false)) ∧
    (monthlyCleanup t1 s).1.lastCleanup = t1 ∧
    monthlyCleanup t2 (monthlyCleanup t1 s).1 = ((monthlyCleanup t1 s).1, false) := by
  have hgate : ∀ (s2 : SweepState) (now : Int), now - s2.lastCleanup < retentionMs →
      monthlyCleanup now s2 = (s2, false) := by
    intro s2 now h
    unfold monthlyCleanup
    rw [if_pos h]
  refine ⟨hgate, ?_, ?_⟩
  · by_cases hc : t1 - s.lastCleanup < retentionMs
    · rw [hgate s t1 hc] at hrun; cases hrun
    · unfold monthlyCleanup
      rw [if_neg hc]
  · by_cases hc : t1 - s.lastCleanup < retentionMs
    · rw [hgate s t1 hc] at hrun; cases hrun
    · have hlast : (monthlyCleanup t1 s).1.lastCleanup = t1 := by
        unfold monthlyCleanup
        rw [if_neg hc]
      exact hgate (monthlyCleanup t1 s).1 t2 (by rw [hlast]; exact hwin)

/-- An old completed row, archived by the first sweep of the witness. -/
def oldDoneRow : TaskRow :=
  ⟨1, "old chore", "Anna", none, none, "normal", "general", "Anna", 0, true,
    some (-5), some "Anna"⟩

/-- The sweep witness state: last run at the epoch, one archivable row. -/
def sweepDemo : SweepState := ⟨0, [oldDoneRow], []⟩

/-- Witness for C9: at time `retentionMs` the sweep proceeds and archives
the old row; a second run 500 ms later leaves the state untouched. -/
theorem monthlyCleanup_gated_witness :
    ((2592000500 : Int) - 2592000000 < retentionMs) ∧
    (monthlyCleanup 2592000000 sweepDemo).2 = true ∧
    monthlyCleanup 2592000500 (monthlyCleanup 2592000000 sweepDemo).1 =
      ((monthlyCleanup 2592000000 sweepDemo).1, false) ∧
    (monthlyCleanup 2592000000 sweepDemo).1 =
      ⟨2592000000, [], [[oldDoneRow]]⟩ :=
  ⟨by decide, by decide,
    (monthlyCleanup_gated sweepDemo 2592000000 2592000500 (by decide)
      (by decide)).2.2, by decide⟩

/-! ## C2: idempotent duplicate insertion -/

/-- Claim C2: inserting the same `{title, owner}` descriptor twice while
the first inserted row is still active leaves exactly one active row with
that title and owner, the second attempt reports an inserted count of 0
(the "already have that" reply category), and the second attempt is a
silent no-op on the table. -/
theorem createTasks_duplicate_noop (store : List TaskRow) (d : Descriptor)
    (person : String) (now1 now2 : Int) (nid1 nid2 : Nat)
    (h : conflictWith d.title person store = false) :
    (createTasks person now1 [d] store nid1).added = 1 ∧
    (createTasks person now2 [d] (createTasks person now1 [d] store nid1).store
        nid2).added = 0 ∧
    (createTasks person now2 [d] (createTasks person now1 [d] store nid1).store
        nid2).store = (createTasks person now1 [d] store nid1).store ∧
    ((createTasks person now2 [d] (createTasks person now1 [d] store nid1).store
        nid2).store.filter (dupPred d.title person)).length = 1 ∧
    createReply ((createTasks person now2 [d]
      (createTasks person now1 [d] store nid1).store nid2).added) =
        CreateReply.alreadyHave := by
  have hrow : dupPred d.title person (mkRowH person now1 nid1 d) = true := by
    unfold dupPred mkRowH
    simp
  have h1 : createTasks person now1 [d] store nid1 =
      { store := store ++ [mkRowH person now1 nid1 d], nextId := nid1 + 1,
        added := 1 } := by
    unfold createTasks
    rw [List.foldl_cons, List.foldl_nil]
    unfold createStep
    rw [if_neg (by simp [h])]
  have hconf2 : conflictWith d.title person
      (store ++ [mkRowH person now1 nid1 d]) = true := by
    unfold conflictWith
    rw [List.any_append]
    simp [List.any_cons, hrow]
  have h2 : createTasks person now2 [d] (store ++ [mkRowH person now1 nid1 d]) nid2 =
      { store := store ++ [mkRowH person now1 nid1 d], nextId := nid2,
        added := 0 } := by
    unfold createTasks
    rw [List.foldl_cons, List.foldl_nil]
    unfold createStep
    rw [if_pos (by simpa using hconf2)]
  have hfilter : (store ++ [mkRowH person now1 nid1 d]).filter
      (dupPred d.title person) = [mkRowH person now1 nid1 d] := by
    rw [List.filter_append,
      filter_eq_nil_of_all_false _ _
        (all_false_of_any_false _ _ (by simpa [conflictWith] using h))]
    simp [List.filter_cons, hrow]
  rw [h1]
  simp only [h2]
  simp [hfilter, createReply]

/-- The descriptor used by the C2 witness. -/
def milkDescriptor : Descriptor := { title := "Buy milk" }

/-- Witness for C2: starting from an empty table, ingesting `Buy milk`
twice leaves exactly one active `Buy milk` row for Anna and the second
run reports the "already have that" category with 0 added. -/
theorem createTasks_duplicate_noop_witness :
    conflictWith (Descriptor.title milkDescriptor) "Anna" [] = false ∧
    (createTasks "Anna" 1 [milkDescriptor] [] 1).added = 1 ∧
    (createTasks "Anna" 2 [milkDescriptor]
        (createTasks "Anna" 1 [milkDescriptor] [] 1).store 2).added = 0 ∧
    ((createTasks "Anna" 2 [milkDescriptor]
        (createTasks "Anna" 1 [milkDescriptor] [] 1).store 2).store.filter
      (dupPred (Descriptor.title milkDescriptor) "Anna")).length = 1 :=
  ⟨by decide,
    (createTasks_duplicate_noop [] milkDescriptor "Anna" 1 2 1 2 (by decide)).1,
    (createTasks_duplicate_noop [] milkDescriptor "Anna" 1 2 1 2 (by decide)).2.1,
    (createTasks_duplicate_noop [] milkDescriptor "Anna" 1 2 1 2 (by decide)).2.2.2.1⟩

/-! ## C5: null-field preservation -/

/-- Claim C5: a new-task descriptor with an absent `when_text` or
`where_text` is stored with `null` in that field by both ingestion paths
(`handlers.js` `createTasks` and `index.js` `processTasks`); a provided
non-empty value is stored exactly as given — the value is never inferred. -/
theorem ingestion_preserves_null_fields (person : String) (now : Int)
    (id : Nat) (d : Descriptor) :
    (d.when_text = none → (mkRowH person now id d).when_text = none ∧
      (mkRowI person now id d).when_text = none) ∧
    (d.where_text = none → (mkRowH person now id d).where_text = none ∧
      (mkRowI person now id d).where_text = none) ∧
    (∀ s, d.when_text = some s → s ≠ "" →
      (mkRowH person now id d).when_text = some s ∧
      (mkRowI person now id d).when_text = some s) ∧
    (∀ s, d.where_text = some s → s ≠ "" →
      (mkRowH person now id d).where_text = some s ∧
      (mkRowI person now id d).where_text = some s) := by
  refine ⟨fun h => ?_, fun h => ?_, fun s hs hne => ?_, fun s hs hne => ?_⟩ <;>
    simp [mkRowH, mkRowI, jsOrNull, *]

/-- Witness for C5: a bare `Buy milk` descriptor stores null hints. -/
theorem ingestion_preserves_null_fields_witness :
    Descriptor.when_text milkDescriptor = none ∧
    Descriptor.where_text milkDescriptor = none ∧
    (mkRowH "Anna" 3 1 milkDescriptor).when_text = none ∧
    (mkRowH "Anna" 3 1 milkDescriptor).where_text = none :=
  ⟨rfl, rfl,
    ((ingestion_preserves_null_fields "Anna" 3 1 milkDescriptor).1 rfl).1,
    ((ingestion_preserves_null_fields "Anna" 3 1 milkDescriptor).2.1 rfl).1⟩

/-! ## C10: empty-string fields coerce like absent fields -/

/-- Claim C10: in both insert paths a `when_text`/`where_text` provided as
the empty string is stored as `null`, and an empty-string `importance` or
`category` falls back to the defaults `normal`/`general`: the falsy
coercion `x || null` / `x || default` makes an empty-string field
indistinguishable in the store from an absent one. -/
theorem ingestion_empty_string_coerces (person : String) (now : Int)
    (id : Nat) (d : Descriptor) :
    mkRowH person now id { d with when_text := some "" } =
      mkRowH person now id { d with when_text := none } ∧
    mkRowH person now id { d with where_text := some "" } =
      mkRowH person now id { d with where_text := none } ∧
    mkRowH person now id { d with importance := some "" } =
      mkRowH person now id { d with importance := none } ∧
    mkRowH person now id { d with category := some "" } =
      mkRowH person now id { d with category := none } ∧
    mkRowI person now id { d with when_text := some "" } =
      mkRowI person now id { d with when_text := none } ∧
    mkRowI person now id { d with where_text := some "" } =
      mkRowI person now id { d with where_text := none } ∧
    mkRowI person now id { d with who := some "" } =
      mkRowI person now id { d with who := none } ∧
    (mkRowH person now id { d with importance := some "" }).importance =
      "normal" ∧
    (mkRowH person now id { d with category := some "" }).category =
      "general" ∧
    (mkRowH person now id { d with when_text := some "" }).when_text = none ∧
    (mkRowH person now id { d with where_text := some "" }).where_text = none := by
  refine ⟨?_, ?_, ?_, ?_, ?_, ?_, ?_, ?_, ?_, ?_, ?_⟩ <;>
    simp [mkRowH, mkRowI, jsOrNull, jsOrDefault]

/-! ## C3: batch ingestion with duplicates -/

/-- The `createTasks` loop only ever appends: starting from any
accumulator, the final table is the initial one extended by the inserted
rows and the added count grows by exactly their number. -/
theorem createTasks_foldl_appends (person : String) (now : Int)
    (batch : List Descriptor) (acc : IngestResult) :
    ∃ ins : List TaskRow,
      (batch.foldl (createStep person now) acc).store = acc.store ++ ins ∧
      (batch.foldl (createStep person now) acc).added = acc.added + ins.length := by
  induction batch generalizing acc with
  | nil => exact ⟨[], by simp⟩
  | cons d ds ih =>
    rw [List.foldl_cons]
    by_cases hc : conflictWith d.title person acc.store
    · rw [show createStep person now acc d = acc from by
        unfold createStep; rw [if_pos hc]]
      exact ih acc
    · rw [show createStep person now acc d =
          { store := acc.store ++ [mkRowH person now acc.nextId d],
            nextId := acc.nextId + 1,
            added := acc.added + 1 } from by
        unfold createStep; rw [if_neg hc]]
      rcases ih
          { store := acc.store ++ [mkRowH person now acc.nextId d],
            nextId := acc.nextId + 1,
            added := acc.added + 1 } with ⟨ins, h1, h2⟩
      refine ⟨mkRowH person now acc.nextId d :: ins, ?_, ?_⟩
      · rw [h1]
        simp
      · rw [h2]
        simp
        omega

/-- Two rows already on the board for Anna, duplicated by the batch. -/
def boardDemo : List TaskRow :=
  [⟨1, "Buy milk", "Anna", none, none, "normal", "shopping", "Anna", 0, false,
      none, none⟩,
   ⟨2, "Buy bread", "Anna", none, none, "normal", "shopping", "Anna", 0, false,
      none, none⟩]

/-- A batch of five descriptors of which the first two duplicate active
rows of `boardDemo`. -/
def batchDemo5 : List Descriptor :=
  [{ title := "Buy milk" }, { title := "Buy bread" }, { title := "Buy eggs" },
   { title := "Buy jam" }, { title := "Buy tea" }]

/-- Claim C3 (amended): in the `handlers.js` `createTasks` path — backed
by the `UNIQUE(title, who, completed)` schema of `db.js` — every row that
hits a unique-constraint conflict is skipped while the rest of the batch
continues, and the already-present rows are never rolled back (the final
table is always the initial table plus the inserted rows); in particular
a batch of 5 descriptors of which 2 duplicate active rows yields exactly
3 inserted rows, reported as the count-3 category. -/
theorem createTasks_partial_success :
    (∀ (person : String) (now : Int) (batch : List Descriptor)
        (store : List TaskRow) (nid : Nat),
      ∃ ins : List TaskRow,
        (createTasks person now batch store nid).store = store ++ ins ∧
        (createTasks person now batch store nid).added = ins.length) ∧
    (createTasks "Anna" 9 batchDemo5 boardDemo 3).added = 3 ∧
    (createTasks "Anna" 9 batchDemo5 boardDemo 3).store.length =
      boardDemo.length + 3 ∧
    createReply ((createTasks "Anna" 9 batchDemo5 boardDemo 3).added) =
      CreateReply.count 3 := by
  refine ⟨?_, by decide, by decide, by decide⟩
  intro person now batch store nid
  rcases createTasks_foldl_appends person now batch
      { store := store, nextId := nid, added := 0 } with ⟨ins, h1, h2⟩
  exact ⟨ins, h1, by simpa using h2⟩

/-- Counterexample for C3 as stated: the cited `index.js` `processTasks`
path runs against the `index.js` schema, which has no unique constraint,
so nothing conflicts and the same batch of 5 descriptors (2 of them
duplicating active rows) inserts all 5 rows — the table ends with two
identical active `Buy milk` rows for the same owner and 7 rows in total,
not the claimed "exactly 3 inserted rows ... reported as 3". -/
theorem processTasks_inserts_duplicates :
    (processTasks "Anna" 9 batchDemo5 boardDemo 3).1.length =
      boardDemo.length + 5 ∧
    ((processTasks "Anna" 9 batchDemo5 boardDemo 3).1.filter
      (dupPred "Buy milk" "Anna")).length = 2 := by
  decide

/-! ## C6: edit applies a partial update -/

/-- One `details` entry writes exactly the recognised column it names
(and nothing when the key is not a recognised column). -/
theorem editStep_fields (t : TaskRow) (k v : String) :
    (if validColumns.contains k then setField t k v else t).id = t.id ∧
    (if validColumns.contains k then setField t k v else t).createdBy = t.createdBy ∧
    (if validColumns.contains k then setField t k v else t).createdAt = t.createdAt ∧
    (if validColumns.contains k then setField t k v else t).completed = t.completed ∧
    (if validColumns.contains k then setField t k v else t).completedAt = t.completedAt ∧
    (if validColumns.contains k then setField t k v else t).completedBy = t.completedBy ∧
    (if validColumns.contains k then setField t k v else t).title =
      (if k = "title" then v else t.title) ∧
    (if validColumns.contains k then setField t k v else t).who =
      (if k = "who" then v else t.who) ∧
    (if validColumns.contains k then setField t k v else t).when_text =
      (if k = "when_text" then some v else t.when_text) ∧
    (if validColumns.contains k then setField t k v else t).where_text =
      (if k = "where_text" then some v else t.where_text) ∧
    (if validColumns.contains k then setField t k v else t).importance =
      (if k = "importance" then v else t.importance) ∧
    (if validColumns.contains k then setField t k v else t).category =
      (if k = "category" then v else t.category) := by
  by_cases h1 : k = "title"
  · subst h1; simp [validColumns, setField]
  by_cases h2 : k = "who"
  · subst h2; simp [validColumns, setField]
  by_cases h3 : k = "when_text"
  · subst h3; simp [validColumns, setField]
  by_cases h4 : k = "where_text"
  · subst h4; simp [validColumns, setField]
  by_cases h5 : k = "importance"
  · subst h5; simp [validColumns, setField]
  by_cases h6 : k = "category"
  · subst h6; simp [validColumns, setField]
  have hmem : k ∉ validColumns := by
    simp [validColumns, h1, h2, h3, h4, h5, h6]
  simp [hmem, h1, h2, h3, h4, h5, h6]

/-- The frame property of `applyDetails`: the id, provenance and
completion columns are never touched, and each of the six recognised
columns keeps its old value whenever no `details` pair names it. -/
theorem applyDetails_frame (ds : List (String × String)) (t : TaskRow) :
    (applyDetails t ds).id = t.id ∧
    (applyDetails t ds).createdBy = t.createdBy ∧
    (applyDetails t ds).createdAt = t.createdAt ∧
    (applyDetails t ds).completed = t.completed ∧
    (applyDetails t ds).completedAt = t.completedAt ∧
    (applyDetails t ds).completedBy = t.completedBy ∧
    ((∀ v, ("title", v) ∉ ds) → (applyDetails t ds).title = t.title) ∧
    ((∀ v, ("who", v) ∉ ds) → (applyDetails t ds).who = t.who) ∧
    ((∀ v, ("when_text", v) ∉ ds) → (applyDetails t ds).when_text = t.when_text) ∧
    ((∀ v, ("where_text", v) ∉ ds) → (applyDetails t ds).where_text = t.where_text) ∧
    ((∀ v, ("importance", v) ∉ ds) → (applyDetails t ds).importance = t.importance) ∧
    ((∀ v, ("category", v) ∉ ds) → (applyDetails t ds).category = t.category) := by
  induction ds generalizing t with
  | nil =>
    refine ⟨rfl, rfl, rfl, rfl, rfl, rfl, ?_, ?_, ?_, ?_, ?_, ?_⟩ <;>
      exact fun _ => rfl
  | cons kv rest ih =>
    have hstep := editStep_fields t kv.1 kv.2
    have happ : applyDetails t (kv :: rest) =
        applyDetails (if validColumns.contains kv.1 then setField t kv.1 kv.2 else t)
          rest := by
      unfold applyDetails
      rw [List.foldl_cons]
    set u := if validColumns.contains kv.1 then setField t kv.1 kv.2 else t with hu
    have ihu := ih u
    rw [happ]
    refine ⟨by rw [ihu.1, hstep.1], by rw [ihu.2.1, hstep.2.1],
      by rw [ihu.2.2.1, hstep.2.2.1], by rw [ihu.2.2.2.1, hstep.2.2.2.1],
      by rw [ihu.2.2.2.2.1, hstep.2.2.2.2.1],
      by rw [ihu.2.2.2.2.2.1, hstep.2.2.2.2.2.1], ?_, ?_, ?_, ?_, ?_, ?_⟩
    · intro hnot
      have hk : kv.1 ≠ "title" := by
        intro hk
        exact hnot kv.2 (by rw [← hk]; exact List.mem_cons_self kv rest)
      rw [ihu.2.2.2.2.2.2.1 (fun v hv => hnot v (List.mem_cons_of_mem kv hv)),
        hstep.2.2.2.2.2.2.1, if_neg hk]
    · intro hnot
      have hk : kv.1 ≠ "who" := by
        intro hk
        exact hnot kv.2 (by rw [← hk]; exact List.mem_cons_self kv rest)
      rw [ihu.2.2.2.2.2.2.2.1 (fun v hv => hnot v (List.mem_cons_of_mem kv hv)),
        hstep.2.2.2.2.2.2.2.1, if_neg hk]
    · intro hnot
      have hk : kv.1 ≠ "when_text" := by
        intro hk
        exact hnot kv.2 (by rw [← hk]; exact List.mem_cons_self kv rest)
      rw [ihu.2.2.2.2.2.2.2.2.1 (fun v hv => hnot v (List.mem_cons_of_mem kv hv)),
        hstep.2.2.2.2.2.2.2.2.1, if_neg hk]
    · intro hnot
      have hk : kv.1 ≠ "where_text" := by
        intro hk
        exact hnot kv.2 (by rw [← hk]; exact List.mem_cons_self kv rest)
      rw [ihu.2.2.2.2.2.2.2.2.2.1 (fun v hv => hnot v (List.mem_cons_of_mem kv hv)),
        hstep.2.2.2.2.2.2.2.2.2.1, if_neg hk]
    · intro hnot
      have hk : kv.1 ≠ "importance" := by
        intro hk
        exact hnot kv.2 (by rw [← hk]; exact List.mem_cons_self kv rest)
      rw [ihu.2.2.2.2.2.2.2.2.2.2.1 (fun v hv => hnot v (List.mem_cons_of_mem kv hv)),
        hstep.2.2.2.2.2.2.2.2.2.2.1, if_neg hk]
    · intro hnot
      have hk : kv.1 ≠ "category" := by
        intro hk
        exact hnot kv.2 (by rw [← hk]; exact List.mem_cons_self kv rest)
      rw [ihu.2.2.2.2.2.2.2.2.2.2.2 (fun v hv => hnot v (List.mem_cons_of_mem kv hv)),
        hstep.2.2.2.2.2.2.2.2.2.2.2, if_neg hk]

/-- Claim C6: an `edit(target, details)` operation that matches a task
updates only the recognised fields present in `details` (title, who,
when_text, where_text, importance, category) on the matched row; every
field absent from `details` — and every unrelated row — is left
unchanged, as are the id, provenance and completion columns. -/
theorem handleEdit_partial_update (person target : String)
    (ds : List (String × String)) (store : List TaskRow) (t : TaskRow)
    (htg : target ≠ "") (hds : ds ≠ [])
    (hvalid : ds.filter (fun kv => validColumns.contains kv.1) ≠ [])
    (hfind : (store.filter (editMatch person target)).head? = some t) :
    handleEdit person (some target) ds store =
      ((store.map fun u => if u.id == t.id then applyDetails u ds else u),
        Reply.updated) ∧
    (∀ u ∈ store, u.id ≠ t.id → u ∈ (handleEdit person (some target) ds store).1) ∧
    (applyDetails t ds).id = t.id ∧
    (applyDetails t ds).completed = t.completed ∧
    (applyDetails t ds).completedAt = t.completedAt ∧
    (applyDetails t ds).completedBy = t.completedBy ∧
    (applyDetails t ds).createdAt = t.createdAt ∧
    (applyDetails t ds).createdBy = t.createdBy ∧
    ((∀ v, ("title", v) ∉ ds) → (applyDetails t ds).title = t.title) ∧
    ((∀ v, ("who", v) ∉ ds) → (applyDetails t ds).who = t.who) ∧
    ((∀ v, ("when_text", v) ∉ ds) → (applyDetails t ds).when_text = t.when_text) ∧
    ((∀ v, ("where_text", v) ∉ ds) → (applyDetails t ds).where_text = t.where_text) ∧
    ((∀ v, ("importance", v) ∉ ds) → (applyDetails t ds).importance = t.importance) ∧
    ((∀ v, ("category", v) ∉ ds) → (applyDetails t ds).category = t.category) := by
  have hdsb : ds.isEmpty = false := by
    cases ds with
    | nil => exact absurd rfl hds
    | cons a l => rfl
  have hvb : (ds.filter (fun kv => validColumns.contains kv.1)).isEmpty = false := by
    cases hvf : ds.filter (fun kv => validColumns.contains kv.1) with
    | nil => exact absurd hvf hvalid
    | cons a l => rfl
  have heq : handleEdit person (some target) ds store =
      ((store.map fun u => if u.id == t.id then applyDetails u ds else u),
        Reply.updated) := by
    simp only [handleEdit]
    rw [if_neg (by simp [htg, hdsb]), hfind]
    rw [hvb]
    simp
  have hframe := applyDetails_frame ds t
  refine ⟨heq, ?_, hframe.1, hframe.2.2.2.1, hframe.2.2.2.2.1,
    hframe.2.2.2.2.2.1, hframe.2.2.1, hframe.2.1, hframe.2.2.2.2.2.2.1,
    hframe.2.2.2.2.2.2.2.1, hframe.2.2.2.2.2.2.2.2.1,
    hframe.2.2.2.2.2.2.2.2.2.1, hframe.2.2.2.2.2.2.2.2.2.2.1,
    hframe.2.2.2.2.2.2.2.2.2.2.2⟩
  intro u hu hne
  rw [heq]
  have : (if u.id == t.id then applyDetails u ds else u) = u := by
    rw [if_neg (by simp [hne])]
  exact this ▸ List.mem_map_of_mem _ hu

/-- The row edited in the C6 witness. -/
def mopRow : TaskRow :=
  ⟨1, "mop the floor", "Anna", some "today", some "home", "normal",
    "cleaning", "Anna", 0, false, none, none⟩

/-- The one-row table of the C6 witness. -/
def editDemo : List TaskRow := [mopRow]

/-- Witness for C6: `edit("floor", {who: "Sam"})` by Anna reassigns the
matched row to Sam and leaves title, when_text, where_text and category
exactly as they were. -/
theorem handleEdit_partial_update_witness :
    ((editDemo.filter (editMatch "Anna" "floor")).head? = some mopRow) ∧
    handleEdit "Anna" (some "floor") [("who", "Sam")] editDemo =
      ([⟨1, "mop the floor", "Sam", some "today", some "home", "normal",
          "cleaning", "Anna", 0, false, none, none⟩], Reply.updated) ∧
    (applyDetails mopRow [("who", "Sam")]).title = mopRow.title ∧
    (applyDetails mopRow [("who", "Sam")]).when_text = mopRow.when_text ∧
    (applyDetails mopRow [("who", "Sam")]).where_text = mopRow.where_text ∧
    (applyDetails mopRow [("who", "Sam")]).category = mopRow.category ∧
    (applyDetails mopRow [("who", "Sam")]).who = "Sam" := by
  have h := handleEdit_partial_update "Anna" "floor" [("who", "Sam")] editDemo
    mopRow (by decide) (by decide) (by decide) (by decide)
  have hne : ∀ (f : String), f ≠ "who" →
      ∀ v, (f, v) ∉ ([("who", "Sam")] : List (String × String)) := by
    intro f hf v hv
    exact absurd (congrArg Prod.fst (List.mem_singleton.mp hv)) hf
  exact ⟨by decide, by decide,
    h.2.2.2.2.2.2.2.2.1 (hne "title" (by decide)),
    h.2.2.2.2.2.2.2.2.2.2.1 (hne "when_text" (by decide)),
    h.2.2.2.2.2.2.2.2.2.2.2.1 (hne "where_text" (by decide)),
    h.2.2.2.2.2.2.2.2.2.2.2.2.2 (hne "category" (by decide)),
    by decide⟩

/-! ## C1: completion selects the shortest matching title -/

/-- Claim C1 (amended): in the edit-capable resolver variant
(`handleComplete` of the third variant), a `complete(target)` whose
cleaned target (lowercased, first `done` and `bought` occurrences
removed, trimmed) is non-empty and matches a task completes exactly one
row: an active task owned by the caller whose title contains the cleaned
target case-insensitively, of minimal title length among all such tasks;
every other row is left unchanged.  (The `index.js` variants select the
shortest-titled match without restricting to the caller's tasks, and the
`handlers.js` `completeTasks` loop instead completes every matching
active task of the caller.) -/
theorem handleComplete_v3_shortest_owned (person : String) (now : Int)
    (target : Option String) (store : List TaskRow) (t : TaskRow)
    (hne : cleanTargetOpt target ≠ "")
    (hfind : shortestMatch (fun u => !u.completed && u.who == person &&
      containsCI u.title (cleanTargetOpt target)) store = some t) :
    t ∈ store ∧ t.completed = false ∧ t.who = person ∧
    containsCI t.title (cleanTargetOpt target) = true ∧
    (∀ u ∈ store, u.completed = false → u.who = person →
      containsCI u.title (cleanTargetOpt target) = true →
      t.title.length ≤ u.title.length) ∧
    handleComplete_v3 person now target store =
      ((store.map fun u => if u.id == t.id then completeRow person now u else u),
        Reply.done 1) ∧
    (∀ u ∈ store, u.id ≠ t.id →
      u ∈ (handleComplete_v3 person now target store).1) := by
  have hspec := shortestMatch_spec _ store t hfind
  have hp := hspec.2.1
  simp only [Bool.and_eq_true, Bool.not_eq_true', beq_iff_eq] at hp
  have heq : handleComplete_v3 person now target store =
      ((store.map fun u => if u.id == t.id then completeRow person now u else u),
        Reply.done 1) := by
    unfold handleComplete_v3
    rw [if_neg hne, hfind]
  refine ⟨hspec.1, hp.1.1, hp.1.2, hp.2, ?_, heq, ?_⟩
  · intro u hu hc hw hci
    refine hspec.2.2 u hu ?_
    simp only [Bool.and_eq_true, Bool.not_eq_true', beq_iff_eq]
    exact ⟨⟨hc, hw⟩, hci⟩
  · intro u hu hne2
    rw [heq]
    have : (if u.id == t.id then completeRow person now u else u) = u := by
      rw [if_neg (by simp [hne2])]
    exact this ▸ List.mem_map_of_mem _ hu

/-- The shorter kitchen row of the C1 witness. -/
def kitchenRow : TaskRow :=
  ⟨1, "clean the kitchen", "Anna", none, none, "normal", "household", "Anna",
    0, false, none, none⟩

/-- The longer kitchen row of the C1 witness. -/
def kitchenFloorRow : TaskRow :=
  ⟨2, "clean the kitchen floor", "Anna", none, none, "normal", "household",
    "Anna", 0, false, none, none⟩

/-- The two-row table of the C1 witness. -/
def kitchenDemo : List TaskRow := [kitchenRow, kitchenFloorRow]

/-- Witness for C1 (amended): with active tasks `clean the kitchen` and
`clean the kitchen floor` for Anna, `complete("kitchen")` completes the
shorter `clean the kitchen` and leaves the floor variant active. -/
theorem handleComplete_v3_shortest_owned_witness :
    (cleanTargetOpt (some "kitchen") ≠ "") ∧
    (shortestMatch (fun u => !u.completed && u.who == "Anna" &&
      containsCI u.title (cleanTargetOpt (some "kitchen"))) kitchenDemo =
        some kitchenRow) ∧
    (∀ u ∈ kitchenDemo, u.completed = false → u.who = "Anna" →
      containsCI u.title (cleanTargetOpt (some "kitchen")) = true →
      kitchenRow.title.length ≤ u.title.length) ∧
    handleComplete_v3 "Anna" 8 (some "kitchen") kitchenDemo =
      ([⟨1, "clean the kitchen", "Anna", none, none, "normal", "household",
          "Anna", 0, true, some 8, some "Anna"⟩, kitchenFloorRow],
        Reply.done 1) :=
  ⟨by decide, by decide,
    (handleComplete_v3_shortest_owned "Anna" 8 (some "kitchen") kitchenDemo
      kitchenRow (by decide) (by decide)).2.2.2.2.1,
    by decide⟩

/-- An active one-letter task owned by Bob. -/
def bobShortRow : TaskRow :=
  ⟨1, "b", "Bob", none, none, "normal", "general", "Bob", 0, false, none, none⟩

/-- An active task owned by Anna whose title contains `b`. -/
def annaAbcRow : TaskRow :=
  ⟨2, "abc", "Anna", none, none, "normal", "general", "Anna", 0, false,
    none, none⟩

/-- Counterexample for C1 as stated: the cited `index.js` `handleComplete`
has no owner filter, so when Anna runs `complete("b")` the shortest-titled
active task owned by Anna whose title contains `b` is `abc` — yet the code
completes Bob's task `b` (shorter overall) and leaves Anna's `abc` active,
so completion does not select among the caller's tasks. -/
theorem handleComplete_v1_cross_owner :
    handleComplete_v1 "Anna" 4 "b" [bobShortRow, annaAbcRow] =
      ([⟨1, "b", "Bob", none, none, "normal", "general", "Bob", 0, true,
          some 4, some "Anna"⟩, annaAbcRow], Reply.done 1) := by
  decide

/-! ## C4: bulk context-shortcut completion -/

/-- Claim C4 (amended): a `complete` identifier matching the Edeka
context shortcut — it mentions edeka together with one of the bulk
qualifiers `zeug`/`sachen`/`alles` (German for stuff/things/everything) —
bulk-completes exactly the caller's active tasks whose `where_text` or
title contains Edeka, in one operation, and the reported count equals
the number of rows completed. -/
theorem completeTasks_edeka_bulk (person : String) (now : Int) (id : String)
    (store : List TaskRow) (h : isEdekaShortcut id = true) :
    (completeTasks person now [id] store).store =
      (store.map fun t => if edekaMatch person t then completeRow person now t
        else t) ∧
    (completeTasks person now [id] store).count =
      (store.filter (edekaMatch person)).length ∧
    (0 < (store.filter (edekaMatch person)).length →
      (completeTasks person now [id] store).reply =
        Reply.done ((store.filter (edekaMatch person)).length)) := by
  have hstep : completeStep person now (store, 0) id =
      ((store.map fun t => if edekaMatch person t then completeRow person now t
          else t),
        0 + (store.filter (edekaMatch person)).length) := by
    unfold completeStep
    rw [if_pos h]
  refine ⟨?_, ?_, ?_⟩
  · simp only [completeTasks, List.foldl_cons, List.foldl_nil, hstep]
  · simp only [completeTasks, List.foldl_cons, List.foldl_nil, hstep]
    exact Nat.zero_add _
  · intro hpos
    simp only [completeTasks, List.foldl_cons, List.foldl_nil, hstep]
    simp [Nat.pos_iff_ne_zero.mp hpos]

/-- First Edeka shopping row of the C4 demo table. -/
def edekaMilkRow : TaskRow :=
  ⟨1, "Buy milk", "Anna", none, some "Edeka", "normal", "shopping", "Anna",
    0, false, none, none⟩

/-- Second Edeka shopping row of the C4 demo table. -/
def edekaBreadRow : TaskRow :=
  ⟨2, "Buy bread", "Anna", none, some "Edeka", "normal", "shopping", "Anna",
    0, false, none, none⟩

/-- Third Edeka shopping row of the C4 demo table. -/
def edekaButterRow : TaskRow :=
  ⟨3, "Buy butter", "Anna", none, some "Edeka", "normal", "shopping", "Anna",
    0, false, none, none⟩

/-- The unrelated fourth row of the C4 demo table. -/
def plantsRow : TaskRow :=
  ⟨4, "water the plants", "Anna", none, none, "normal", "general", "Anna",
    0, false, none, none⟩

/-- The C4 demo table: three active Edeka rows and one unrelated row. -/
def edekaDemo : List TaskRow :=
  [edekaMilkRow, edekaBreadRow, edekaButterRow, plantsRow]

/-- Witness for C4 (amended): `complete("edeka alles")` by Anna completes
exactly the three Edeka rows, leaves the fourth row active, and reports
count 3. -/
theorem completeTasks_edeka_bulk_witness :
    isEdekaShortcut "edeka alles" = true ∧
    (0 < (edekaDemo.filter (edekaMatch "Anna")).length) ∧
    (completeTasks "Anna" 6 ["edeka alles"] edekaDemo).count = 3 ∧
    (completeTasks "Anna" 6 ["edeka alles"] edekaDemo).reply = Reply.done 3 ∧
    (completeTasks "Anna" 6 ["edeka alles"] edekaDemo).store =
      [⟨1, "Buy milk", "Anna", none, some "Edeka", "normal", "shopping",
          "Anna", 0, true, some 6, some "Anna"⟩,
        ⟨2, "Buy bread", "Anna", none, some "Edeka", "normal", "shopping",
          "Anna", 0, true, some 6, some "Anna"⟩,
        ⟨3, "Buy butter", "Anna", none, some "Edeka", "normal", "shopping",
          "Anna", 0, true, some 6, some "Anna"⟩,
        plantsRow] :=
  ⟨by decide, by decide,
    by rw [(completeTasks_edeka_bulk "Anna" 6 "edeka alles" edekaDemo
      (by decide)).2.1]; decide,
    by rw [(completeTasks_edeka_bulk "Anna" 6 "edeka alles" edekaDemo
      (by decide)).2.2 (by decide)]; decide,
    by decide⟩

/-- Counterexample for C4 as stated: `complete("edeka everything")` — the
spec's own example — is not recognised by the shortcut (the code's
qualifiers are only `zeug`, `sachen`, `alles`), falls through to the
standard path, matches nothing, and completes zero of the three Edeka
rows, replying not-found instead of reporting count 3. -/
theorem completeTasks_edeka_everything_miss :
    isEdekaShortcut "edeka everything" = false ∧
    (edekaDemo.filter (edekaMatch "Anna")).length = 3 ∧
    completeTasks "Anna" 6 ["edeka everything"] edekaDemo =
      { store := edekaDemo, count := 0, reply := Reply.notFound } := by
  refine ⟨by decide, by decide, ?_⟩
  decide

/-! ## C7: resolution miss is non-mutating -/

/-- Claim C7 (amended): a `complete(target)` that does not match a bulk
context shortcut and for which no active task title of the caller
contains the target performs zero mutations — the table is unchanged —
and replies with either one suggestion drawn from the caller's active
tasks whose title contains the target's first three characters, or a
not-found reply when there is no such task; the miss is an ordinary
reply, never an exception. -/
theorem completeTasks_no_match (person : String) (now : Int) (target : String)
    (store : List TaskRow)
    (hE : isEdekaShortcut target = false)
    (hK : isKuecheShortcut target = false)
    (hNo : ∀ t ∈ store, stdMatch person target t = false) :
    completeTasks person now [target] store =
      { store := store, count := 0, reply := disambigReply store person target } ∧
    ((∃ t ∈ store, t.completed = false ∧ t.who = person ∧
        containsCI t.title (take3 target) = true ∧
        disambigReply store person target = Reply.suggestion t.title) ∨
      disambigReply store person target = Reply.notFound) := by
  have hfil : store.filter (stdMatch person target) = [] :=
    filter_eq_nil_of_all_false _ _ hNo
  have hmap : (store.map fun t =>
      if stdMatch person target t then completeRow person now t else t) = store :=
    map_ite_id _ _ _ hNo
  have hstep : completeStep person now (store, 0) target = (store, 0) := by
    unfold completeStep
    rw [if_neg (by simp [hE]), if_neg (by simp [hK]), hfil, hmap]
    simp
  have hr : completeTasks person now [target] store =
      { store := store, count := 0,
        reply := disambigReply store person target } := by
    unfold completeTasks
    rw [List.foldl_cons, List.foldl_nil, hstep]
    simp
  refine ⟨hr, ?_⟩
  cases hfl : store.filter (fun t => !t.completed && t.who == person &&
      containsCI t.title (take3 target)) with
  | nil =>
    right
    unfold disambigReply
    rw [hfl]
    rfl
  | cons a as =>
    left
    have hmem : a ∈ store.filter (fun t => !t.completed && t.who == person &&
        containsCI t.title (take3 target)) := by
      rw [hfl]
      exact List.mem_cons_self a as
    have ha := List.mem_filter.mp hmem
    have hpa := ha.2
    simp only [Bool.and_eq_true, Bool.not_eq_true', beq_iff_eq] at hpa
    refine ⟨a, ha.1, hpa.1.1, hpa.1.2, hpa.2, ?_⟩
    unfold disambigReply
    rw [hfl]
    rfl

/-- The single row of the C7 witness table. -/
def xyzRow : TaskRow :=
  ⟨1, "fix the xyz box", "Anna", none, none, "normal", "general", "Anna",
    0, false, none, none⟩

/-- Witness for C7 (amended): `complete("xyzzz")` matches no title, leaves
the single-row table untouched, and suggests `fix the xyz box`, whose
title contains the first three characters `xyz` of the target. -/
theorem completeTasks_no_match_witness :
    isEdekaShortcut "xyzzz" = false ∧
    isKuecheShortcut "xyzzz" = false ∧
    (∀ t ∈ [xyzRow], stdMatch "Anna" "xyzzz" t = false) ∧
    completeTasks "Anna" 2 ["xyzzz"] [xyzRow] =
      { store := [xyzRow], count := 0,
        reply := disambigReply [xyzRow] "Anna" "xyzzz" } ∧
    disambigReply [xyzRow] "Anna" "xyzzz" =
      Reply.suggestion "fix the xyz box" :=
  ⟨by decide, by decide, by decide,
    (completeTasks_no_match "Anna" 2 "xyzzz" [xyzRow] (by decide) (by decide)
      (by decide)).1,
    by decide⟩

/-- Counterexample for C7 as stated: for `complete("edeka alles")` by Anna
no active task title contains the target, yet the operation is a bulk
shortcut — it completes the three Edeka rows (count 3) and mutates the
table instead of performing zero mutations and replying with a
suggestion or not-found. -/
theorem completeTasks_no_title_match_still_mutates :
    (∀ t ∈ edekaDemo, stdMatch "Anna" "edeka alles" t = false) ∧
    (completeTasks "Anna" 6 ["edeka alles"] edekaDemo).count = 3 ∧
    (completeTasks "Anna" 6 ["edeka alles"] edekaDemo).store ≠ edekaDemo := by
  refine ⟨by decide, by decide, ?_⟩
  decide

/-! ## C8: empty or missing target -/

/-- Claim C8 (amended): in the guarded resolver variants — the
`handleComplete` of the second `index.js` variant and of the edit-capable
variant, and the corresponding `handleRemove` — a complete or delete
operation whose target is missing or reduces to the empty string after
cleaning produces a clarifying prompt and performs no mutation; it never
matches against the empty string.  (The earliest `index.js`
`handleComplete` lacks this guard.) -/
theorem guarded_empty_target (person : String) (now : Int)
    (target : Option String) (store : List TaskRow) :
    (cleanTargetOpt target = "" →
      handleComplete_v2 person now target store = (store, Reply.clarify)) ∧
    (cleanTargetOpt target = "" →
      handleComplete_v3 person now target store = (store, Reply.clarify)) ∧
    (removeTargetLower target = "" →
      handleRemove_v2 person now target store = (store, Reply.clarify)) := by
  refine ⟨fun h => ?_, fun h => ?_, fun h => ?_⟩
  · unfold handleComplete_v2
    rw [if_pos h]
  · unfold handleComplete_v3
    rw [if_pos h]
  · unfold handleRemove_v2
    rw [if_pos h]

/-- Witness for C8 (amended): a missing target, and a target `"done"`
that cleans to the empty string, both produce the clarifying prompt and
leave the table untouched in every guarded variant. -/
theorem guarded_empty_target_witness :
    cleanTargetOpt none = "" ∧
    cleanTargetOpt (some "done") = "" ∧
    removeTargetLower none = "" ∧
    handleComplete_v2 "Anna" 1 none kitchenDemo = (kitchenDemo, Reply.clarify) ∧
    handleComplete_v3 "Anna" 1 (some "done") kitchenDemo =
      (kitchenDemo, Reply.clarify) ∧
    handleRemove_v2 "Anna" 1 none kitchenDemo = (kitchenDemo, Reply.clarify) :=
  ⟨by decide, by decide, by decide,
    (guarded_empty_target "Anna" 1 none kitchenDemo).1 (by decide),
    (guarded_empty_target "Anna" 1 (some "done") kitchenDemo).2.1 (by decide),
    (guarded_empty_target "Anna" 1 none kitchenDemo).2.2 (by decide)⟩

/-- Counterexample for C8 as stated: the cited earlier `handleComplete`
of `index.js` has no guard, so `complete("")` matches every active row
(the empty string is a substring of every title) and completes the
shortest-titled one — a mutation with a success reply instead of a
clarifying prompt. -/
theorem unguarded_empty_target_completes :
    cleanTarget "" = "" ∧
    handleComplete_v1 "Anna" 7 "" [bobShortRow, annaAbcRow] =
      ([⟨1, "b", "Bob", none, none, "normal", "general", "Bob", 0, true,
          some 7, some "Anna"⟩, annaAbcRow], Reply.done 1) := by
  refine ⟨by decide, ?_⟩
  decide
